import Mathlib

/-!
Verification development for the asset price monitor (`gld_monitor.py`).

The program is a linear batch job: fetch a daily OHLC price series per
ticker, reduce it to metrics (current price, windowed high, date of the
high, percentage drop), decide per ticker whether to alert (threshold
check plus deduplication on the last-alerted high), send one consolidated
notification, and persist the per-ticker alert state only when delivery
succeeded.

Prices are embedded as rationals (an idealisation of Python floats) and
Python's `round(x, 2)` as round-half-to-even at two decimal places.
External I/O (Yahoo Finance fetch, SMTP delivery, the gist store) is
modelled by passing the fetched series, the delivery outcome and the
loaded state as explicit inputs to the orchestration step.
-/

section Monitor

/- The Batteries rational-number operations are `@[irreducible]`, which
blocks `decide` on concrete rational arithmetic; restore the default
reducibility locally so concrete evaluations go through. -/
attribute [local semireducible] Rat.add Rat.sub Rat.mul Rat.inv

/-- One trading day of the fetched history: the `{date, open, high, low,
close}` rows returned by the market data source (`stock.history`). -/
structure Day where
  date : String
  openPrice : ℚ
  high : ℚ
  low : ℚ
  close : ℚ
deriving DecidableEq, Repr

/-- The record returned by `get_ticker_data` (lines 95-102). -/
structure TickerData where
  ticker : String
  name : String
  current_price : ℚ
  recent_high : ℚ
  high_date : String
  drop_percent : ℚ
deriving DecidableEq, Repr

/-- Error raised by `get_ticker_data`: the only failure the function
itself raises is the `ValueError("No data found for ...")` on an empty
history (line 89), the spec's `NoDataError`. -/
inductive MetricsError where
  | noData (ticker : String)
deriving DecidableEq, Repr

/-- Round a rational to the nearest integer, ties to even: the semantics
of Python's builtin `round`. -/
def roundHalfEven (q : ℚ) : ℤ :=
  let f := ⌊q⌋
  let r := q - (f : ℚ)
  if r < 1/2 then f
  else if 1/2 < r then f + 1
  else if f % 2 = 0 then f else f + 1

/-- Python's `round(x, 2)`: round to two decimal places, ties to even. -/
def py_round2 (q : ℚ) : ℚ :=
  (roundHalfEven (q * 100) : ℚ) / 100

/-- Maximum of a list of rationals with seed `a` (the reduction behind
`hist["High"].max()` on a nonempty series). -/
def listMax : ℚ → List ℚ → ℚ
  | a, [] => a
  | a, x :: xs => listMax (max a x) xs

/-- `hist["High"].max()` over the nonempty series `d :: ds`. -/
def maxHigh (d : Day) (ds : List Day) : ℚ :=
  listMax d.high (ds.map (·.high))

/-- `hist["High"].idxmax()` over the nonempty series `d :: ds`: the first
row attaining the maximal high (pandas `idxmax` returns the first
occurrence). The `getD d` default is never reached since the maximum is
attained. -/
def highDay (d : Day) (ds : List Day) : Day :=
  (((d :: ds).find? (fun x => x.high = maxHigh d ds)).getD d)

/-- Configuration constant `DROP_THRESHOLD = 0.02` (line 26). -/
def DROP_THRESHOLD : ℚ := 2 / 100

/-- The pure part of `get_ticker_data` (lines 88-102), applied to the
history already fetched: empty history raises, otherwise the metrics
record is built with prices rounded to two decimals and the drop percent
computed from the unrounded values. -/
def get_ticker_data (ticker name : String) (hist : List Day) :
    Except MetricsError TickerData :=
  match hist with
  | [] => .error (.noData ticker)
  | d :: ds =>
    let current_price := (ds.getLastD d).close
    let recent_high := maxHigh d ds
    .ok { ticker := ticker
          name := name
          current_price := py_round2 current_price
          recent_high := py_round2 recent_high
          high_date := (highDay d ds).date
          drop_percent := py_round2 ((recent_high - current_price) / recent_high * 100) }

/-- Per-ticker alert state: the dictionary stored under a ticker key in
the persisted state. A missing key is read back as Python `None` via
`.get`, modelled by `none`. -/
structure TickerAlertState where
  last_alert_high : Option ℚ
  last_alert_time : Option String
deriving DecidableEq, Repr

/-- The run state: the JSON object persisted in the gist, a mapping from
ticker symbol to its alert state. Embedded as an association list, which
keeps the insertion order of a Python dict. -/
abbrev RunState : Type := List (String × TickerAlertState)

instance {ε α : Type} [DecidableEq ε] [DecidableEq α] : DecidableEq (Except ε α) := fun x y =>
  match x, y with
  | .ok a, .ok b =>
    if h : a = b then isTrue (by rw [h]) else isFalse (fun hh => h (Except.ok.inj hh))
  | .error a, .error b =>
    if h : a = b then isTrue (by rw [h]) else isFalse (fun hh => h (Except.error.inj hh))
  | .ok _, .error _ => isFalse (fun hh => Except.noConfusion hh)
  | .error _, .ok _ => isFalse (fun hh => Except.noConfusion hh)

/-- `state.get(ticker, {})` followed by field access: the per-ticker
state, with both fields absent when the ticker has no entry. Keys of a
Python dict are unique, so taking the first matching entry is exact. -/
def stateGet : RunState → String → TickerAlertState
  | [], _ => ⟨none, none⟩
  | (k, w) :: rest, t => if k = t then w else stateGet rest t

/-- Python dict assignment `state[t] = v`: overwrite the entry in place
if the key is present, otherwise append it. -/
def stateSet : RunState → String → TickerAlertState → RunState
  | [], t, v => [(t, v)]
  | (k, w) :: rest, t, v =>
    if k = t then (t, v) :: rest else (k, w) :: stateSet rest t v

/-- `should_send_alert` (lines 186-200): alert only when the drop meets
the threshold and the stored `last_alert_high` is not numerically equal
to the freshly computed `recent_high`. -/
def should_send_alert (data : TickerData) (state : RunState) : Bool :=
  if data.drop_percent < DROP_THRESHOLD * 100 then false
  else if (stateGet state data.ticker).last_alert_high = some data.recent_high then false
  else true

/-- One ticker's fetch outcome as seen by `main`'s loop: `none` models a
provider exception (caught at lines 213-216 and skipped). -/
structure TickerFetch where
  ticker : String
  name : String
  series : Option (List Day)
deriving DecidableEq, Repr

/-- The metrics records `main` collects across its loop: failed fetches
and empty histories are logged and skipped. -/
def runDatas (fetches : List TickerFetch) : List TickerData :=
  fetches.filterMap fun f =>
    f.series.bind fun hist => (get_ticker_data f.ticker f.name hist).toOption

/-- Observable outcome of one `main` run: the collected alert list, the
consolidated notifications handed to the email transport, the state after
the run, and whether `save_state` was invoked. -/
structure RunResult where
  alerts : List TickerData
  emailsAttempted : List (List TickerData)
  finalState : RunState
  saveInvoked : Bool
deriving Repr

/-- The decision-and-persistence part of `main` (lines 203-244), with the
fetched data, the wall-clock string and the email transport outcome as
explicit inputs: collect the qualifying tickers against the loaded state,
send one consolidated email if any qualify, and only on delivery success
overwrite each alerting ticker's state and invoke `save_state`. -/
def runStep (fetches : List TickerFetch) (now : String) (emailOk : Bool)
    (state : RunState) : RunResult :=
  let alerts := (runDatas fetches).filter (fun d => should_send_alert d state)
  if alerts.isEmpty then
    { alerts := alerts, emailsAttempted := [], finalState := state, saveInvoked := false }
  else if emailOk then
    { alerts := alerts
      emailsAttempted := [alerts]
      finalState := alerts.foldl
        (fun st d => stateSet st d.ticker ⟨some d.recent_high, some now⟩) state
      saveInvoked := true }
  else
    { alerts := alerts, emailsAttempted := [alerts], finalState := state
      saveInvoked := false }

/-- The inputs of one externally triggered run: what the market data
source returned, the timestamp, and whether the email transport
succeeded. -/
structure RunInput where
  fetches : List TickerFetch
  now : String
  emailOk : Bool
deriving Repr

/-- Iterated runs: each run loads the state the previous run left in the
store. -/
def runSeq (s : RunState) : List RunInput → RunState
  | [] => s
  | r :: rest => runSeq (runStep r.fetches r.now r.emailOk s).finalState rest

/-- JSON values, the image of Python's `json` module. -/
inductive Json where
  | null
  | num (q : ℚ)
  | str (s : String)
  | bool (b : Bool)
  | arr (xs : List Json)
  | obj (fields : List (String × Json))
deriving Repr

/-- Field lookup in a JSON object, as `dict.get` after `json.loads`. -/
def jlookup (fs : List (String × Json)) (k : String) : Option Json :=
  (fs.find? (fun p => p.1 = k)).map (·.2)

/-- Serialization of one ticker's alert state, as written by `save_state`
(line 179): `json.dumps` renders Python `None` as `null`. -/
def tasToJson (s : TickerAlertState) : Json :=
  .obj [("last_alert_high", match s.last_alert_high with
          | none => .null
          | some q => .num q),
        ("last_alert_time", match s.last_alert_time with
          | none => .null
          | some t => .str t)]

/-- Decode the `last_alert_high` field: absent or `null` reads back as
`None`, a number as itself. -/
def decodeHigh : Option Json → Option (Option ℚ)
  | none => some none
  | some .null => some none
  | some (.num q) => some (some q)
  | _ => none

/-- Decode the `last_alert_time` field: absent or `null` reads back as
`None`, a string as itself. -/
def decodeTime : Option Json → Option (Option String)
  | none => some none
  | some .null => some none
  | some (.str t) => some (some t)
  | _ => none

/-- Parse one ticker's alert state out of its JSON value. -/
def tasFromJson : Json → Option TickerAlertState
  | .obj fs => do
    let h ← decodeHigh (jlookup fs "last_alert_high")
    let t ← decodeTime (jlookup fs "last_alert_time")
    pure ⟨h, t⟩
  | _ => none

/-- `save_state`'s persistence format (lines 168-183): the JSON object
mapping each ticker symbol to its serialized alert state. -/
def save_state_json (s : RunState) : Json :=
  .obj (s.map (fun p => (p.1, tasToJson p.2)))

/-- Decode the entries of the persisted JSON object one by one, failing
if any entry does not parse. -/
def load_entries : List (String × Json) → Option RunState
  | [] => some []
  | (k, j) :: rest => do
    let v ← tasFromJson j
    let tail ← load_entries rest
    pure ((k, v) :: tail)

/-- `load_state`'s reading of the persisted JSON back into a run state
(lines 147-165 together with the field accesses in
`should_send_alert`). -/
def load_state_json : Json → Option RunState
  | .obj fs => load_entries fs
  | _ => none

/-! Helper lemmas about the rounding function. -/

lemma floor_le_roundHalfEven (q : ℚ) : ⌊q⌋ ≤ roundHalfEven q := by
  unfold roundHalfEven
  dsimp only
  split_ifs <;> omega

lemma roundHalfEven_le_ceil (q : ℚ) : roundHalfEven q ≤ ⌈q⌉ := by
  unfold roundHalfEven
  dsimp only
  split_ifs with h1 h2 h3
  · exact Int.floor_le_ceil q
  · have hlt : (⌊q⌋ : ℚ) < q := by
      have : (0 : ℚ) < q - (⌊q⌋ : ℚ) := lt_of_lt_of_le (by norm_num) (not_lt.mp h1)
      linarith
    exact (Int.add_one_le_ceil_iff.mpr hlt)
  · exact Int.floor_le_ceil q
  · have hlt : (⌊q⌋ : ℚ) < q := by
      have h12 : q - (⌊q⌋ : ℚ) = 1/2 := le_antisymm (not_lt.mp h2) (not_lt.mp h1)
      have : (0 : ℚ) < q - (⌊q⌋ : ℚ) := by rw [h12]; norm_num
      linarith
    exact (Int.add_one_le_ceil_iff.mpr hlt)

lemma py_round2_nonneg {q : ℚ} (h : 0 ≤ q) : 0 ≤ py_round2 q := by
  unfold py_round2
  have h1 : (0 : ℤ) ≤ ⌊q * 100⌋ := Int.floor_nonneg.mpr (by positivity)
  have h2 : (0 : ℤ) ≤ roundHalfEven (q * 100) := le_trans h1 (floor_le_roundHalfEven _)
  positivity

lemma py_round2_le_100 {q : ℚ} (h : q ≤ 100) : py_round2 q ≤ 100 := by
  unfold py_round2
  have h1 : q * 100 ≤ ((10000 : ℤ) : ℚ) := by push_cast; nlinarith
  have h2 : roundHalfEven (q * 100) ≤ 10000 :=
    le_trans (roundHalfEven_le_ceil _) (Int.ceil_le.mpr h1)
  have h3 : ((roundHalfEven (q * 100) : ℚ)) ≤ 10000 := by exact_mod_cast h2
  linarith

/-! Helper lemmas about the windowed maximum. -/

lemma listMax_eq_or_mem (a : ℚ) (l : List ℚ) : listMax a l = a ∨ listMax a l ∈ l := by
  induction l generalizing a with
  | nil => exact .inl rfl
  | cons x xs ih =>
    show listMax (max a x) xs = a ∨ listMax (max a x) xs ∈ x :: xs
    rcases ih (max a x) with h | h
    · rcases max_choice a x with hm | hm
      · exact .inl (by rw [h, hm])
      · exact .inr (by rw [h, hm]; exact List.mem_cons_self _ _)
    · exact .inr (List.mem_cons_of_mem _ h)

lemma le_listMax (a : ℚ) (l : List ℚ) : a ≤ listMax a l := by
  induction l generalizing a with
  | nil => exact le_refl a
  | cons x xs ih => exact le_trans (le_max_left a x) (ih (max a x))

lemma le_listMax_of_mem {x : ℚ} {l : List ℚ} (a : ℚ) (h : x ∈ l) : x ≤ listMax a l := by
  induction l generalizing a with
  | nil => cases h
  | cons y ys ih =>
    rcases List.mem_cons.mp h with rfl | h'
    · exact le_trans (le_max_right a x) (le_listMax _ _)
    · exact ih _ h'

lemma maxHigh_mem (d : Day) (ds : List Day) :
    maxHigh d ds ∈ (d :: ds).map (·.high) := by
  rcases listMax_eq_or_mem d.high (ds.map (·.high)) with h | h
  · rw [maxHigh, h]; exact List.mem_cons_self _ _
  · exact List.mem_cons_of_mem _ h

lemma le_maxHigh (d : Day) (ds : List Day) :
    ∀ x ∈ (d :: ds).map (·.high), x ≤ maxHigh d ds := by
  intro x hx
  rcases List.mem_cons.mp hx with rfl | h'
  · exact le_listMax _ _
  · exact le_listMax_of_mem _ h'

/-! Helper lemmas about `List.find?`: first-occurrence decomposition. -/

lemma find?_first {α : Type} (p : α → Bool) :
    ∀ (l : List α) (x : α), l.find? p = some x →
      ∃ l1 l2, l = l1 ++ x :: l2 ∧ p x = true ∧ ∀ y ∈ l1, p y = false := by
  intro l
  induction l with
  | nil => intro x h; cases h
  | cons a as ih =>
    intro x h
    by_cases hp : p a
    · rw [List.find?_cons_of_pos _ hp] at h
      obtain rfl := Option.some.inj h
      exact ⟨[], as, rfl, hp, fun y hy => absurd hy (List.not_mem_nil y)⟩
    · rw [List.find?_cons_of_neg _ (by simpa using hp)] at h
      obtain ⟨l1, l2, rfl, hx, hall⟩ := ih x h
      refine ⟨a :: l1, l2, rfl, hx, ?_⟩
      intro y hy
      rcases List.mem_cons.mp hy with rfl | hy'
      · exact Bool.not_eq_true _ ▸ (by simpa using hp)
      · exact hall y hy'

lemma find?_attains (d : Day) (ds : List Day) :
    ∃ y, (d :: ds).find? (fun x => x.high = maxHigh d ds) = some y := by
  have hmem := maxHigh_mem d ds
  obtain ⟨x, hx, hxe⟩ := List.mem_map.mp hmem
  cases hf : (d :: ds).find? (fun z => z.high = maxHigh d ds) with
  | some y => exact ⟨y, rfl⟩
  | none =>
    have := List.find?_eq_none.mp hf x hx
    simp [hxe] at this

/-! Helper lemmas about the state mapping. -/

lemma stateGet_stateSet_self (s : RunState) (t : String) (v : TickerAlertState) :
    stateGet (stateSet s t v) t = v := by
  induction s with
  | nil => simp [stateSet, stateGet]
  | cons p rest ih =>
    obtain ⟨k, w⟩ := p
    by_cases h : k = t
    · subst h; simp [stateSet, stateGet]
    · simp only [stateSet, if_neg h, stateGet]
      exact ih

lemma stateGet_stateSet_ne (s : RunState) {t u : String} (v : TickerAlertState)
    (h : t ≠ u) : stateGet (stateSet s t v) u = stateGet s u := by
  induction s with
  | nil => simp [stateSet, stateGet, if_neg h]
  | cons p rest ih =>
    obtain ⟨k, w⟩ := p
    by_cases hk : k = t
    · subst hk
      simp only [stateSet, if_pos rfl, stateGet, if_neg h]
    · simp only [stateSet, if_neg hk, stateGet]
      by_cases hu : k = u
      · rw [if_pos hu, if_pos hu]
      · rw [if_neg hu, if_neg hu]
        exact ih

lemma stateGet_foldl_update (l : List TickerData) (st : RunState) (T now : String)
    (h : ∀ d ∈ l, d.ticker ≠ T) :
    stateGet (l.foldl (fun s d => stateSet s d.ticker ⟨some d.recent_high, some now⟩) st) T
      = stateGet st T := by
  induction l generalizing st with
  | nil => rfl
  | cons x xs ih =>
    simp only [List.foldl_cons]
    rw [ih _ (fun d hd => h d (List.mem_cons_of_mem _ hd))]
    exact stateGet_stateSet_ne _ _ (h x (List.mem_cons_self _ _))

/-! Helper lemmas about the alert policy and the orchestration step. -/

lemma should_send_alert_false_of_armed (d : TickerData) (s : RunState)
    (h : (stateGet s d.ticker).last_alert_high = some d.recent_high) :
    should_send_alert d s = false := by
  by_cases h1 : d.drop_percent < DROP_THRESHOLD * 100
  · simp [should_send_alert, h1]
  · simp [should_send_alert, h1, h]

lemma runStep_armed (fetches : List TickerFetch) (now : String) (emailOk : Bool)
    (s : RunState) (T : String) (H : ℚ)
    (h0 : (stateGet s T).last_alert_high = some H)
    (hf : ∀ dd ∈ runDatas fetches, dd.ticker = T → dd.recent_high = H) :
    (stateGet (runStep fetches now emailOk s).finalState T).last_alert_high = some H := by
  have hne : ∀ dd ∈ (runDatas fetches).filter (fun d => should_send_alert d s),
      dd.ticker ≠ T := by
    intro dd hdd hT
    have hmem := (List.mem_filter.mp hdd).1
    have hsa : should_send_alert dd s = true := (List.mem_filter.mp hdd).2
    have hfalse : should_send_alert dd s = false :=
      should_send_alert_false_of_armed dd s (by rw [hT, hf dd hmem hT]; exact h0)
    rw [hsa] at hfalse
    cases hfalse
  unfold runStep
  dsimp only
  split_ifs with h1 h2
  · exact h0
  · rw [stateGet_foldl_update _ _ _ _ hne]
    exact h0
  · exact h0

lemma runSeq_armed (s0 : RunState) (T : String) (H : ℚ) (runs : List RunInput)
    (h0 : (stateGet s0 T).last_alert_high = some H)
    (hall : ∀ r ∈ runs, ∀ dd ∈ runDatas r.fetches, dd.ticker = T → dd.recent_high = H) :
    (stateGet (runSeq s0 runs) T).last_alert_high = some H := by
  induction runs generalizing s0 with
  | nil => exact h0
  | cons r rest ih =>
    exact ih _
      (runStep_armed r.fetches r.now r.emailOk s0 T H h0
        (hall r (List.mem_cons_self _ _)))
      (fun r' hr' => hall r' (List.mem_cons_of_mem _ hr'))

/-! Helper lemmas about the persistence format. -/

lemma tas_roundtrip (v : TickerAlertState) : tasFromJson (tasToJson v) = some v := by
  obtain ⟨h, t⟩ := v
  cases h <;> cases t <;> rfl

lemma runStep_alerts (fetches : List TickerFetch) (now : String) (emailOk : Bool)
    (s : RunState) :
    (runStep fetches now emailOk s).alerts
      = (runDatas fetches).filter (fun d => should_send_alert d s) := by
  unfold runStep
  dsimp only
  split_ifs <;> rfl

/-- C1: `should_send_alert` returns true exactly when the drop percent is
at least the threshold (strict `<` dismissal, so a drop exactly at the
threshold alerts) and the stored `last_alert_high` is not numerically
equal to the freshly computed window high; with no prior entry the stored
value reads back as `None`, which never equals a number, so a qualifying
drop alerts. -/
theorem should_send_alert_iff (d : TickerData) (s : RunState) :
    should_send_alert d s = true ↔
      DROP_THRESHOLD * 100 ≤ d.drop_percent
        ∧ (stateGet s d.ticker).last_alert_high ≠ some d.recent_high := by
  unfold should_send_alert
  split_ifs with h1 h2
  · simp only [Bool.false_eq_true, false_iff]
    exact fun hh => absurd hh.1 (not_le.mpr h1)
  · simp only [Bool.false_eq_true, false_iff]
    exact fun hh => hh.2 h2
  · constructor
    · intro _
      exact ⟨not_lt.mp h1, h2⟩
    · intro _
      rfl

/-- C2: once the store holds `last_alert_high = H` for ticker `T`, then
across any sequence of further runs in which every computed reading for
`T` still has window high `H`, every evaluation of a `T` reading with
window high `H` returns no-alert, and any `T` reading that does alert
must carry a window high different from `H`. -/
theorem no_repeat_alert_for_same_high (s0 : RunState) (T : String) (H : ℚ)
    (pre : List RunInput) (d : TickerData)
    (h0 : (stateGet s0 T).last_alert_high = some H)
    (hpre : ∀ r ∈ pre, ∀ dd ∈ runDatas r.fetches, dd.ticker = T → dd.recent_high = H)
    (ht : d.ticker = T) :
    (d.recent_high = H → should_send_alert d (runSeq s0 pre) = false)
    ∧ (should_send_alert d (runSeq s0 pre) = true → d.recent_high ≠ H) := by
  have harm := runSeq_armed s0 T H pre h0 hpre
  constructor
  · intro hH
    exact should_send_alert_false_of_armed d _ (by rw [ht, hH]; exact harm)
  · intro halert hH
    have hfalse := should_send_alert_false_of_armed d (runSeq s0 pre)
      (by rw [ht, hH]; exact harm)
    rw [halert] at hfalse
    cases hfalse

/-- C2 witness: a concrete armed state, one intervening run at the same
high, and a fresh reading at that high, instantiating the theorem. -/
theorem no_repeat_alert_for_same_high_witness :
    (stateGet [("GLD", ⟨some 100, some "t0"⟩)] "GLD").last_alert_high = some 100
    ∧ (∀ r ∈ [(⟨[⟨"GLD", "Gold", some [⟨"2024-01-05", 100, 100, 94, 95⟩]⟩],
          "t1", true⟩ : RunInput)],
        ∀ dd ∈ runDatas r.fetches, dd.ticker = "GLD" → dd.recent_high = 100)
    ∧ (⟨"GLD", "Gold", 95, 100, "2024-01-05", 5⟩ : TickerData).ticker = "GLD"
    ∧ (((⟨"GLD", "Gold", 95, 100, "2024-01-05", 5⟩ : TickerData).recent_high = 100 →
          should_send_alert ⟨"GLD", "Gold", 95, 100, "2024-01-05", 5⟩
            (runSeq [("GLD", ⟨some 100, some "t0"⟩)]
              [⟨[⟨"GLD", "Gold", some [⟨"2024-01-05", 100, 100, 94, 95⟩]⟩],
                "t1", true⟩]) = false)
        ∧ (should_send_alert ⟨"GLD", "Gold", 95, 100, "2024-01-05", 5⟩
              (runSeq [("GLD", ⟨some 100, some "t0"⟩)]
                [⟨[⟨"GLD", "Gold", some [⟨"2024-01-05", 100, 100, 94, 95⟩]⟩],
                  "t1", true⟩]) = true →
            (⟨"GLD", "Gold", 95, 100, "2024-01-05", 5⟩ : TickerData).recent_high ≠ 100)) :=
  ⟨by decide, by decide, by decide,
    no_repeat_alert_for_same_high _ "GLD" 100 _ _ (by decide) (by decide) (by decide)⟩

/-- C3: when email delivery fails, `save_state` is not invoked and the
state is left untouched, a subsequent run over the same inputs collects
the same alert list, and `save_state` is only ever invoked on a run whose
delivery succeeded. -/
theorem failed_delivery_leaves_state (fetches : List TickerFetch) (now now2 : String)
    (s : RunState) :
    (runStep fetches now false s).saveInvoked = false
    ∧ (runStep fetches now false s).finalState = s
    ∧ (runStep fetches now2 true ((runStep fetches now false s).finalState)).alerts
        = (runStep fetches now false s).alerts
    ∧ ∀ ok : Bool, (runStep fetches now ok s).saveInvoked = true → ok = true := by
  have hfs : (runStep fetches now false s).finalState = s := by
    unfold runStep
    dsimp only
    split_ifs <;> first | rfl | contradiction
  have hsi : (runStep fetches now false s).saveInvoked = false := by
    unfold runStep
    dsimp only
    split_ifs <;> first | rfl | contradiction
  refine ⟨hsi, hfs, ?_, ?_⟩
  · rw [hfs, runStep_alerts, runStep_alerts]
  · intro ok h
    cases ok
    · rw [hsi] at h
      cases h
    · rfl

/-- C4 counterexample: on a one-day series whose close is `95.001`, the
computed `current_price` is the rounded `95`, not the most recent close
itself, refuting the claim that the metrics fields carry the raw
values. -/
theorem metrics_fields_unrounded_cex :
    get_ticker_data "GLD" "Gold" [⟨"2024-01-02", 100, 100, 94, 95001/1000⟩]
        = .ok ⟨"GLD", "Gold", 95, 100, "2024-01-02", 5⟩
    ∧ (95 : ℚ) ≠ 95001/1000
    ∧ (List.getLastD [] (⟨"2024-01-02", 100, 100, 94, 95001/1000⟩ : Day)).close
        = 95001/1000 := by
  decide

/-- C4 (amended): on every nonempty series the metrics hold the
two-decimal rounding of the most recent close and of the greatest "high"
of the window, the date of the first row attaining that greatest high,
and the drop percent `round((high - close) / high * 100, 2)` computed
from the unrounded values. -/
theorem metrics_fields_spec (t n : String) (d : Day) (ds : List Day) :
    ∃ m : TickerData,
      get_ticker_data t n (d :: ds) = .ok m
      ∧ m.ticker = t
      ∧ m.name = n
      ∧ m.current_price = py_round2 ((ds.getLastD d).close)
      ∧ ∃ M : ℚ, M ∈ (d :: ds).map (·.high)
          ∧ (∀ x ∈ (d :: ds).map (·.high), x ≤ M)
          ∧ m.recent_high = py_round2 M
          ∧ m.drop_percent = py_round2 ((M - (ds.getLastD d).close) / M * 100)
          ∧ ∃ l1 y l2, (d :: ds) = l1 ++ y :: l2 ∧ y.high = M
              ∧ (∀ z ∈ l1, z.high ≠ M) ∧ m.high_date = y.date := by
  obtain ⟨y, hy⟩ := find?_attains d ds
  obtain ⟨l1, l2, hdecomp, hpy, hall⟩ := find?_first _ _ _ hy
  refine ⟨_, rfl, rfl, rfl, rfl, maxHigh d ds, maxHigh_mem d ds, le_maxHigh d ds,
    rfl, rfl, l1, y, l2, hdecomp, of_decide_eq_true hpy, ?_, ?_⟩
  · intro z hz
    have := hall z hz
    simpa using this
  · show (highDay d ds).date = y.date
    rw [highDay, hy]
    rfl

/-- C5: the code has no guard for a zero or negative window high; on an
all-negative one-day series it returns a metrics record (with a negative
drop percent) instead of failing with a `ComputationError`, contradicting
the spec's stated intent. -/
theorem nonpositive_high_returns_metrics :
    get_ticker_data "GLD" "Gold" [⟨"2024-01-02", -1, -1, -2, -2⟩]
        = .ok ⟨"GLD", "Gold", -2, -1, "2024-01-02", -100⟩ := by
  decide

/-- C6 counterexample: nothing validates that the close stays below the
window high, so a one-day series with high `100` and close `105` yields
`drop_percent = -5`, outside the claimed `0`-`100` range. -/
theorem drop_percent_range_cex :
    get_ticker_data "X" "X" [⟨"2024-01-02", 100, 100, 90, 105⟩]
        = .ok ⟨"X", "X", 105, 100, "2024-01-02", -5⟩
    ∧ ((-5 : ℚ) < 0) := by
  decide

/-- C6 (amended): whenever the window high is positive and the most
recent close lies between `0` and the window high, the computed drop
percent lies in `[0, 100]` and is an integer multiple of `1/100`
(two-decimal precision). -/
theorem drop_percent_in_range (t n : String) (d : Day) (ds : List Day) (m : TickerData)
    (hm : get_ticker_data t n (d :: ds) = .ok m)
    (hpos : 0 < maxHigh d ds)
    (hc0 : 0 ≤ (ds.getLastD d).close)
    (hcM : (ds.getLastD d).close ≤ maxHigh d ds) :
    0 ≤ m.drop_percent ∧ m.drop_percent ≤ 100
      ∧ ∃ k : ℤ, m.drop_percent = (k : ℚ) / 100 := by
  have hrec := Except.ok.inj
    ((rfl : get_ticker_data t n (d :: ds) = get_ticker_data t n (d :: ds)).symm.trans hm)
  subst hrec
  dsimp only
  have hx0 : 0 ≤ (maxHigh d ds - (ds.getLastD d).close) / maxHigh d ds * 100 :=
    mul_nonneg (div_nonneg (by linarith) hpos.le) (by norm_num)
  have hx1 : (maxHigh d ds - (ds.getLastD d).close) / maxHigh d ds * 100 ≤ 100 := by
    have h1 : (maxHigh d ds - (ds.getLastD d).close) / maxHigh d ds ≤ 1 :=
      (div_le_one hpos).mpr (by linarith)
    nlinarith
  exact ⟨py_round2_nonneg hx0, py_round2_le_100 hx1,
    roundHalfEven ((maxHigh d ds - (ds.getLastD d).close) / maxHigh d ds * 100 * 100), rfl⟩

/-- C6 witness: a one-day series with high `100` and close `95`
instantiating the amended range theorem. -/
theorem drop_percent_in_range_witness :
    get_ticker_data "GLD" "Gold" [⟨"2024-01-02", 100, 100, 94, 95⟩]
        = .ok ⟨"GLD", "Gold", 95, 100, "2024-01-02", 5⟩
    ∧ (0 : ℚ) < maxHigh ⟨"2024-01-02", 100, 100, 94, 95⟩ []
    ∧ (0 : ℚ) ≤ (List.getLastD [] (⟨"2024-01-02", 100, 100, 94, 95⟩ : Day)).close
    ∧ (List.getLastD [] (⟨"2024-01-02", 100, 100, 94, 95⟩ : Day)).close
        ≤ maxHigh ⟨"2024-01-02", 100, 100, 94, 95⟩ []
    ∧ (0 ≤ (⟨"GLD", "Gold", 95, 100, "2024-01-02", 5⟩ : TickerData).drop_percent
        ∧ (⟨"GLD", "Gold", 95, 100, "2024-01-02", 5⟩ : TickerData).drop_percent ≤ 100
        ∧ ∃ k : ℤ,
            (⟨"GLD", "Gold", 95, 100, "2024-01-02", 5⟩ : TickerData).drop_percent
              = (k : ℚ) / 100) :=
  ⟨by decide, by decide, by decide, by decide,
    drop_percent_in_range "GLD" "Gold" ⟨"2024-01-02", 100, 100, 94, 95⟩ []
      ⟨"GLD", "Gold", 95, 100, "2024-01-02", 5⟩ (by decide) (by decide) (by decide)
      (by decide)⟩

/-- C7: in a run with a nonempty alert list and successful delivery,
exactly one consolidated notification is attempted, carrying exactly the
qualifying tickers, and the state entry of every ticker that did not
alert is left unchanged. -/
theorem consolidated_notification_frame (fetches : List TickerFetch) (now : String)
    (s : RunState)
    (h : (runStep fetches now true s).alerts ≠ []) :
    (runStep fetches now true s).emailsAttempted
        = [(runDatas fetches).filter (fun d => should_send_alert d s)]
    ∧ (runStep fetches now true s).alerts
        = (runDatas fetches).filter (fun d => should_send_alert d s)
    ∧ ∀ T : String,
        (∀ d ∈ (runStep fetches now true s).alerts, d.ticker ≠ T) →
        stateGet (runStep fetches now true s).finalState T = stateGet s T := by
  have halerts := runStep_alerts fetches now true s
  have hne : ¬ ((runDatas fetches).filter
      (fun d => should_send_alert d s)).isEmpty = true := by
    rw [halerts] at h
    simpa [List.isEmpty_iff] using h
  refine ⟨?_, halerts, ?_⟩
  · unfold runStep
    dsimp only
    rw [if_neg hne, if_pos rfl]
  · intro T hT
    rw [halerts] at hT
    unfold runStep
    dsimp only
    rw [if_neg hne, if_pos rfl]
    exact stateGet_foldl_update _ _ _ _ hT

/-- C7 witness: two tickers with drops of 3% and 1%; only the first
qualifies and the consolidated notification names exactly it. -/
theorem consolidated_notification_frame_witness :
    (runStep [⟨"GLD", "Gold", some [⟨"2024-01-02", 100, 100, 94, 97⟩]⟩,
        ⟨"SLV", "Silver", some [⟨"2024-01-02", 100, 100, 94, 99⟩]⟩]
      "2024-01-03" true []).alerts ≠ []
    ∧ (runStep [⟨"GLD", "Gold", some [⟨"2024-01-02", 100, 100, 94, 97⟩]⟩,
          ⟨"SLV", "Silver", some [⟨"2024-01-02", 100, 100, 94, 99⟩]⟩]
        "2024-01-03" true []).emailsAttempted
        = [(runDatas [⟨"GLD", "Gold", some [⟨"2024-01-02", 100, 100, 94, 97⟩]⟩,
              ⟨"SLV", "Silver", some [⟨"2024-01-02", 100, 100, 94, 99⟩]⟩]).filter
            (fun d => should_send_alert d [])] :=
  ⟨by decide, (consolidated_notification_frame _ _ _ (by decide)).1⟩

/-- C8: an empty price series makes the metrics computation fail with the
no-data error for that ticker; no metrics record is returned. -/
theorem empty_series_no_data_error (t n : String) :
    get_ticker_data t n [] = .error (.noData t)
    ∧ ∀ m : TickerData, get_ticker_data t n [] ≠ .ok m :=
  ⟨rfl, fun _ h => Except.noConfusion h⟩

/-- C9: serializing a run state to the JSON persistence format and
loading it back yields the original state (keys of a Python dict are
unique, hence the no-duplicate hypothesis). -/
theorem state_roundtrip (s : RunState) (h : (s.map Prod.fst).Nodup) :
    load_state_json (save_state_json s) = some s := by
  induction s with
  | nil => rfl
  | cons p rest ih =>
    obtain ⟨k, v⟩ := p
    have hr := ih (List.Nodup.of_cons (by simpa using h))
    simp only [save_state_json, load_state_json] at hr
    simp [save_state_json, load_state_json, load_entries, tas_roundtrip, hr]

/-- C9 witness: a two-ticker state with one armed and one empty entry
round-trips through the persistence format. -/
theorem state_roundtrip_witness :
    (([("GLD", ⟨some 100, some "2024-01-03"⟩), ("SLV", ⟨none, none⟩)] : RunState).map
        Prod.fst).Nodup
    ∧ load_state_json (save_state_json
          [("GLD", ⟨some 100, some "2024-01-03"⟩), ("SLV", ⟨none, none⟩)])
        = some [("GLD", ⟨some 100, some "2024-01-03"⟩), ("SLV", ⟨none, none⟩)] :=
  ⟨by decide, state_roundtrip _ (by decide)⟩

/-- C10: the deduplication key is the two-decimal rounding of the raw
window high: the metrics field is that rounding, the post-alert state
update stores exactly the metrics field, and the dedup comparison is
equality of these rounded values, so two raw highs that agree after
rounding suppress the second alert. -/
theorem dedup_key_rounded_high (t n1 n2 now : String) (d1 d2 : Day)
    (ds1 ds2 : List Day) (s : RunState) (m1 m2 : TickerData)
    (hm1 : get_ticker_data t n1 (d1 :: ds1) = .ok m1)
    (hm2 : get_ticker_data t n2 (d2 :: ds2) = .ok m2)
    (hround : py_round2 (maxHigh d1 ds1) = py_round2 (maxHigh d2 ds2)) :
    m1.recent_high = py_round2 (maxHigh d1 ds1)
    ∧ m2.recent_high = m1.recent_high
    ∧ stateGet (stateSet s m1.ticker ⟨some m1.recent_high, some now⟩) m2.ticker
        = ⟨some m1.recent_high, some now⟩
    ∧ should_send_alert m2 (stateSet s m1.ticker ⟨some m1.recent_high, some now⟩)
        = false := by
  have hrec1 := Except.ok.inj
    ((rfl : get_ticker_data t n1 (d1 :: ds1) = get_ticker_data t n1 (d1 :: ds1)).symm.trans hm1)
  have hrec2 := Except.ok.inj
    ((rfl : get_ticker_data t n2 (d2 :: ds2) = get_ticker_data t n2 (d2 :: ds2)).symm.trans hm2)
  subst hrec1
  subst hrec2
  refine ⟨rfl, hround.symm, stateGet_stateSet_self s t _, ?_⟩
  apply should_send_alert_false_of_armed
  show (stateGet (stateSet s t _) t).last_alert_high = _
  rw [stateGet_stateSet_self s t _]
  dsimp only
  rw [hround]

/-- C10 witness: raw highs `100.001` and `100.004` both round to `100`;
after an alert stored the first, the second reading is suppressed. -/
theorem dedup_key_rounded_high_witness :
    get_ticker_data "GLD" "Gold" [⟨"2024-01-02", 100001/1000, 100001/1000, 94, 95⟩]
        = .ok ⟨"GLD", "Gold", 95, 100, "2024-01-02", 5⟩
    ∧ get_ticker_data "GLD" "Gold" [⟨"2024-01-03", 100004/1000, 100004/1000, 94, 95⟩]
        = .ok ⟨"GLD", "Gold", 95, 100, "2024-01-03", 5⟩
    ∧ py_round2 (maxHigh ⟨"2024-01-02", 100001/1000, 100001/1000, 94, 95⟩ [])
        = py_round2 (maxHigh ⟨"2024-01-03", 100004/1000, 100004/1000, 94, 95⟩ [])
    ∧ should_send_alert ⟨"GLD", "Gold", 95, 100, "2024-01-03", 5⟩
        (stateSet [] "GLD" ⟨some 100, some "2024-01-03"⟩) = false :=
  ⟨by decide, by decide, by decide,
    (dedup_key_rounded_high "GLD" "Gold" "Gold" "2024-01-03"
      ⟨"2024-01-02", 100001/1000, 100001/1000, 94, 95⟩
      ⟨"2024-01-03", 100004/1000, 100004/1000, 94, 95⟩ [] [] []
      ⟨"GLD", "Gold", 95, 100, "2024-01-02", 5⟩
      ⟨"GLD", "Gold", 95, 100, "2024-01-03", 5⟩
      (by decide) (by decide) (by decide)).2.2.2⟩

end Monitor
